import Mathlib

/-
Verification of the virtual file-system library (src/include/file.h,
src/src/file.cc) against its specification.

The C++ code is shallowly embedded: each C++ function is translated into an
executable Lean definition over explicit state.  Machine integers (`size_t`,
pointer differences) are modelled as `Nat`/`Int` with an explicit conversion
through `% 2^64` where the C++ code converts a signed value to `size_t`.
Bytes read from memory are `Option UInt8`: `some b` is a byte with a known
value, `none` is memory whose content the C++ abstract machine leaves
indeterminate (unmapped or uninitialized).
-/

namespace kx

/-- Conversion of a signed pointer-difference value to `size_t`: reduction
modulo `2^64`, yielding a natural number in `[0, 2^64)`.  This models the
implementation-defined wraparound of `std::size_t` arithmetic in
`MemFile::read`, where `beg + size - pointer` can be negative as a pointer
difference but is stored into a `std::size_t`. -/
def sizeT (i : Int) : Nat := (i % (2 ^ 64 : Int)).toNat

/-- Model of `MemFile::impl` (file.cc lines 209-227).  `pos` is the pointer
difference `pointer - beg` (an `Int`, since nothing prevents the pointer from
moving below `beg`).  `size` is the member `size`.  `mem i` is the byte the
process can read at address `beg + i`: `some b` when that address holds a
known byte, `none` when reading it yields an indeterminate value. -/
structure MemFile where
  mem : Int → Option UInt8
  size : Nat
  pos : Int

/-- The three `std::ios::seekdir` origins `beg`, `cur`, `end`. -/
inductive SeekDir where
  | beg : SeekDir
  | cur : SeekDir
  | ends : SeekDir
deriving DecidableEq

/-- Model of `MemFile::read` (file.cc lines 237-244):
`remaining = beg + size - pointer` (a pointer difference converted to
`size_t`), `read = min(remaining, size_param)`, `memcpy` of `read` bytes
starting at the current pointer, `pointer += read`, and the function
returns `read / my->size` — the copied byte count divided by the *member*
`size` (the file size), exactly as written in the source.
Result: (return value, bytes copied into the caller buffer, new state). -/
def MemFile.read (m : MemFile) (n : Nat) : Nat × List (Option UInt8) × MemFile :=
  let remaining : Nat := sizeT ((m.size : Int) - m.pos)
  let k : Nat := min remaining n
  let copied : List (Option UInt8) := (List.range k).map (fun j => m.mem (m.pos + (j : Int)))
  (k / m.size, copied, { m with pos := m.pos + (k : Int) })

/-- Model of `MemFile::seek` (file.cc lines 246-251): `beg` sets
`pointer = beg + offset`, `cur` sets `pointer += offset`, `end` sets
`pointer = min(beg + size + offset, beg + size)` — clamped above at the end
of the buffer, with no lower clamp on any branch. -/
def MemFile.seek (m : MemFile) (offset : Int) (origin : SeekDir) : MemFile :=
  match origin with
  | .beg => { m with pos := offset }
  | .cur => { m with pos := m.pos + offset }
  | .ends => { m with pos := min ((m.size : Int) + offset) ((m.size : Int)) }

/-- Model of `MemFile::tell` (file.cc lines 253-256): `pointer - beg`. -/
def MemFile.tell (m : MemFile) : Int := m.pos

/-- Model of the non-owning constructor `MemFile::MemFile(void* data, size)`
via `impl(void* data, size)` (file.cc lines 225-226, 232-233): `beg` points
at the caller's buffer, `pointer = beg`.  Relative to `beg`, the buffer's
bytes occupy addresses `[0, bs.length)`; addresses outside the buffer read
as indeterminate. The member `size` is the length of the buffer (callers
pass the buffer's length). -/
def MemFile.borrowing (bs : List UInt8) : MemFile :=
  { mem := fun i => if 0 ≤ i ∧ i < (bs.length : Int) then some (bs.getD i.toNat 0) else none
    size := bs.length
    pos := 0 }

/-- Model of the owning constructor `MemFile::MemFile(unique_ptr data, size)`
via `impl(unique_ptr data, size)` (file.cc lines 222-223, 229-230).  The
mem-initializer list is `data(std::move(data)), beg(data.get()), pointer(beg)`:
in a mem-initializer the unqualified name `data` resolves to the constructor
*parameter*, which has just been moved from, so `data.get()` is the null
pointer and `beg = pointer = nullptr`.  The owned buffer itself lives at the
heap address `addr` (nonzero for any real allocation).  Addresses in `mem`
are relative to `beg = nullptr`, i.e. absolute: the buffer's bytes sit at
`[addr, addr + bs.length)` and everything else reads as indeterminate.
`pos = pointer - beg = 0` and the member `size` is the buffer length. -/
def MemFile.owning (addr : Nat) (bs : List UInt8) : MemFile :=
  { mem := fun i =>
      if (addr : Int) ≤ i ∧ i < (addr : Int) + (bs.length : Int)
      then some (bs.getD (i - (addr : Int)).toNat 0) else none
    size := bs.length
    pos := 0 }

/-- Model of `File::get` (file.cc lines 119-124) over a `MemFile` handler:
`std::uint8_t c; handler->read(&c, 1); return c;`.  If the read copies one
byte, `c` is that byte; if it copies nothing (EOF), `c` is returned
uninitialized, modelled as `none`. -/
def MemFile.get (m : MemFile) : Option UInt8 × MemFile :=
  let r := m.read 1
  (r.2.1.headD none, r.2.2)

/-- Model of `File::peek` (file.cc lines 126-131) over a `MemFile` handler:
`c = get(); handler->seek(-1, cur); return c;`. -/
def MemFile.peek (m : MemFile) : Option UInt8 × MemFile :=
  let g := m.get
  (g.1, g.2.seek (-1) .cur)

/-- Model of the loop of `File::read_line` (file.cc lines 103-113) over a
`MemFile` handler: `for (; count > 0 && c != LF; --count) { handler->read(&c, 1);
if (c != CR && c != LF) { *buffer++ = c; chars_read++; } }`.  The loop ignores
the value returned by `read`, so when the read copies nothing (EOF) `c` keeps
its previous value.  `c = none` models an indeterminate `c`; comparing an
indeterminate `c` against CR/LF is modelled as "not equal" (the branch the
claims never reach with a determinate source).  Result: (handler state, final
`c`, bytes written to the caller's buffer in order). -/
def readLineGo : MemFile → Option UInt8 → List (Option UInt8) → Nat →
    MemFile × Option UInt8 × List (Option UInt8)
  | m, c, acc, 0 => (m, c, acc)
  | m, c, acc, Nat.succ k =>
    if c = some 10 then (m, c, acc)
    else
      let r := MemFile.read m 1
      let c' := r.2.1.headD c
      let acc' := if c' ≠ some 13 ∧ c' ≠ some 10 then acc ++ [c'] else acc
      readLineGo r.2.2 c' acc' k

/-- Outcome of one `File::read_line` call: the handler state afterwards, the
final value of the local `c`, the characters written into the buffer (in
order, at indices `0, 1, ...`), the index at which the final NUL terminator
is written, and the returned `chars_read`. -/
structure LineRead where
  state : MemFile
  lastC : Option UInt8
  chars : List (Option UInt8)
  nulIdx : Nat
  ret : Nat

/-- Model of `File::read_line` (file.cc lines 101-117) over a `MemFile`
handler.  After the loop the buffer pointer stands at index `chars.length`;
`if (c != LF) ++buffer; *buffer = 0;` writes the terminator at
`chars.length` when the loop ended on a consumed LF and at
`chars.length + 1` otherwise.  `chars_read` is incremented exactly when a
character is written, so the returned count is `chars.length`. -/
def MemFile.readLine (m : MemFile) (count : Nat) : LineRead :=
  let r := readLineGo m (some 0) [] count
  { state := r.1
    lastC := r.2.1
    chars := r.2.2
    nulIdx := if r.2.1 = some 10 then r.2.2.length else r.2.2.length + 1
    ret := r.2.2.length }

/-- Model of `File` (file.h lines 51-98): a wrapper owning one handler.
The handler type is a parameter, as `File` holds an abstract
`FileHandler`. -/
structure File (α : Type) where
  handler : α

/-- Model of `FileSystem` (file.cc lines 20-23): an ordered list of
handlers.  A handler (`FileSystemHandler::open`) maps a file path to
`some` file handler or `none` (the null pointer) when it cannot satisfy
the path. -/
structure FileSystem (α : Type) where
  handlers : List (String → Option α)

/-- The loop of `FileSystem::open` (file.cc lines 52-64): try each handler
in order; the first non-null result is wrapped in a `File` and returned;
if every handler returns null, throw an exception whose message is
"Failed opening file " followed by the path. -/
def openFirst {α : Type} (hs : List (String → Option α)) (p : String) :
    Except String (File α) :=
  match hs with
  | [] => Except.error ("Failed opening file " ++ p)
  | h :: rest =>
    match h p with
    | some f => Except.ok (File.mk f)
    | none => openFirst rest p

/-- Model of `FileSystem::open` (file.cc lines 52-64). -/
def FileSystem.open {α : Type} (fs : FileSystem α) (p : String) :
    Except String (File α) :=
  openFirst fs.handlers p

/-- Model of `FileSystem::addHandler` (file.cc lines 66-69): appends the
handler at the back of the list, so registration order is list order. -/
def FileSystem.addHandler {α : Type} (fs : FileSystem α) (h : String → Option α) :
    FileSystem α :=
  { handlers := fs.handlers ++ [h] }

/-- A zip archive as seen across the archive-decoder boundary (spec section 6):
a list of named entries, each with its fully decoded contents. -/
structure Archive where
  entries : List (String × List UInt8)

/-- Lookup of an entry by name, modelling `zip_stat` + `zip_fopen` +
`zip_fread` across the archive-decoder boundary (spec section 6): when the
entry is present, its fully decoded contents are produced; when it is
absent, `zip_fopen` returns null. -/
def Archive.readEntry (ar : Archive) (name : String) : Option (List UInt8) :=
  (ar.entries.find? (fun e => e.1 == name)).map (fun e => e.2)

/-- Model of `ZipFileSystem` (file.h lines 147-158): stores the archive
path given at construction. -/
structure ZipFileSystem where
  zip_file : String

/-- Model of `ZipFileSystem::open` (file.cc lines 177-201).  `world` maps a
path to the archive stored at that path (`none` when `zip_open` fails there);
`addr` is the heap address `new std::uint8_t[size]` returns for the decoded
buffer.  The source calls `zip_open(filepath, 0, NULL)` — it passes the
*requested file path*, not the stored member `zip_file`, which the body
never uses — then looks up `filepath` as an entry in whatever archive that
opened, decodes it, and returns a `MemFile` built with the owning
constructor. -/
def ZipFileSystem.open (self : ZipFileSystem) (world : String → Option Archive)
    (addr : Nat) (filepath : String) : Option MemFile :=
  match world filepath with
  | none => none
  | some ar =>
    match ar.readEntry filepath with
    | none => none
    | some bytes => some (MemFile.owning addr bytes)

/-- A world holding one archive at path "assets.zip" that contains the
single entry "e.txt" with contents [1, 2, 3]. -/
def demoWorld : String → Option Archive := fun p =>
  if p = "assets.zip" then some (Archive.mk [("e.txt", [1, 2, 3])]) else none

/-- The byte sequence "abc\r\ndef". -/
def abcCrLfDef : List UInt8 := [97, 98, 99, 13, 10, 100, 101, 102]

/-- C1: for a MemFile of length 3 at position 0, read(buffer, 2) copies the
first two bytes of the buffer and advances the position to 2 as the claim
states, but the value it returns is `2 / 3 = 0` — the copied byte count
divided by the member `size` — and not the byte count 2 = min(3 - 0, 2)
the claim (and the header comment of `File::read`) promises. -/
theorem c1_memfile_read_divides_count :
    ((MemFile.borrowing [1, 2, 3]).read 2).2.1 = [some 1, some 2] ∧
    ((MemFile.borrowing [1, 2, 3]).read 2).2.2.pos = 2 ∧
    ((MemFile.borrowing [1, 2, 3]).read 2).1 = 0 ∧
    ((MemFile.borrowing [1, 2, 3]).read 2).1 ≠ min (3 - 0) 2 := by
  decide

/-- C2: when the registered handlers are `pre ++ h :: post`, every handler
in `pre` reports absence for `p`, and `h` produces the source `s`, then
`FileSystem::open` returns a `File` wrapping `s`, for every choice of the
later handlers `post` — the first-registered handler that can satisfy the
path wins and no later handler affects the result. -/
theorem c2_first_handler_wins {α : Type} (pre post : List (String → Option α))
    (h : String → Option α) (p : String) (s : α)
    (hpre : ∀ g ∈ pre, g p = none) (hh : h p = some s) :
    FileSystem.open (FileSystem.mk (pre ++ h :: post)) p = Except.ok (File.mk s) := by
  induction pre with
  | nil => simp [FileSystem.open, openFirst, hh]
  | cons g rest ih =>
    have hg : g p = none := hpre g (List.mem_cons_self g rest)
    have hrest : ∀ g' ∈ rest, g' p = none := fun g' hg' => hpre g' (List.mem_cons_of_mem g hg')
    simpa [FileSystem.open, openFirst, hg] using ih hrest

/-- Witness for C2: with a first handler that misses, a second that returns
source 1 and a third that returns source 2, open returns the File wrapping
source 1. -/
theorem c2_first_handler_wins_witness :
    FileSystem.open (FileSystem.mk
      [fun _ => (none : Option Nat), fun _ => some 1, fun _ => some 2]) "a.txt" =
      Except.ok (File.mk 1) :=
  c2_first_handler_wins [fun _ => none] [fun _ => some 2] (fun _ => some 1) "a.txt" 1
    (by intro g hg; rw [List.mem_singleton] at hg; subst hg; rfl) rfl

/-- C3: `FileSystem::open` fails with the error message
"Failed opening file " followed by the requested path exactly when every
registered handler reports absence for that path (so an empty FileSystem
fails for every path), and that message is the only error the function
produces. -/
theorem c3_notfound_iff_all_absent {α : Type} (hs : List (String → Option α)) (p : String) :
    (FileSystem.open (FileSystem.mk hs) p = Except.error ("Failed opening file " ++ p) ↔
      ∀ g ∈ hs, g p = none) ∧
    (∀ e, FileSystem.open (FileSystem.mk hs) p = Except.error e →
      e = "Failed opening file " ++ p) := by
  induction hs with
  | nil =>
    constructor
    · simp [FileSystem.open, openFirst]
    · intro e he
      simp only [FileSystem.open, openFirst, Except.error.injEq] at he
      exact he.symm
  | cons g rest ih =>
    cases hv : g p with
    | some f =>
      constructor
      · simp [FileSystem.open, openFirst, hv]
      · intro e he
        simp [FileSystem.open, openFirst, hv] at he
    | none =>
      constructor
      · simpa [FileSystem.open, openFirst, hv] using ih.1
      · intro e he
        simp only [FileSystem.open, openFirst, hv] at he
        exact ih.2 e he

/-- Witness for C3: an empty FileSystem fails for the path "missing.txt"
with the error message identifying that path. -/
theorem c3_notfound_iff_all_absent_witness :
    FileSystem.open (FileSystem.mk ([] : List (String → Option Nat))) "missing.txt" =
      Except.error ("Failed opening file " ++ "missing.txt") :=
  (c3_notfound_iff_all_absent [] "missing.txt").1.mpr
    (by intro g hg; exact absurd hg (List.not_mem_nil g))

/-- C4: on the source "abc\r\ndef", the first read_line call with buffer
capacity 16 writes "abc" and returns 3 as the claim states, but the second
call returns 16 — not 3 — and writes "def" followed by thirteen repeats
of the last byte 'f': the loop ignores the count returned by read, so at
end-of-file `c` keeps its previous value and is appended once per remaining
loop iteration. -/
theorem c4_readline_eof_runaway :
    ((MemFile.borrowing abcCrLfDef).readLine 16).chars = [some 97, some 98, some 99] ∧
    ((MemFile.borrowing abcCrLfDef).readLine 16).ret = 3 ∧
    (((MemFile.borrowing abcCrLfDef).readLine 16).state.readLine 16).ret = 16 ∧
    (((MemFile.borrowing abcCrLfDef).readLine 16).state.readLine 16).chars ≠
      [some 100, some 101, some 102] := by
  decide

/-- C5: a ZipFileSystem constructed with archive path "assets.zip", in a
world where "assets.zip" is an openable archive containing the entry
"e.txt", reports absence for open("e.txt"): the implementation passes the
requested entry name — not the stored archive path — to zip_open, so the
archive registered at construction is never consulted. -/
theorem c5_zip_open_uses_entry_path_as_archive :
    ((ZipFileSystem.mk "assets.zip").open demoWorld 1000 "e.txt").isNone = true ∧
    (demoWorld "assets.zip").isSome = true ∧
    (Archive.mk [("e.txt", [1, 2, 3])]).readEntry "e.txt" = some [1, 2, 3] := by
  exact ⟨rfl, rfl, rfl⟩

/-- C6: a MemFile built with the owning constructor from the one-byte
buffer [65] (allocated at heap address 1000) starts at position 0 as the
claim states, but reading 1 byte copies an indeterminate byte read through
the null `beg` pointer — not the supplied byte 65 — because the
mem-initializer list reads `data.get()` from the just-moved-from
constructor parameter. -/
theorem c6_owning_reads_null_not_buffer :
    (MemFile.owning 1000 [65]).pos = 0 ∧
    ((MemFile.owning 1000 [65]).read 1).2.1 = [none] ∧
    ((MemFile.owning 1000 [65]).read 1).2.1 ≠ [some (65 : UInt8)] := by
  decide

/-- C7 (amended): an end-relative seek never leaves the position above the
length, and `seek(-(size + 10), end)` puts the position at -10: the
end-relative branch clamps the pointer above at `beg + size` but applies
no lower clamp at `beg`. -/
theorem c7_end_seek_clamps_above_only (m : MemFile) (offset : Int) :
    (m.seek offset .ends).pos ≤ (m.size : Int) ∧
    (m.seek (-((m.size : Int) + 10)) .ends).pos = -10 := by
  constructor <;> simp only [MemFile.seek] <;> omega

/-- Counterexample for C7: on a MemFile of length 2, seek(-(2+10), end)
leaves the position at -10, not at 0. -/
theorem c7_end_seek_not_clamped_at_zero :
    ((MemFile.borrowing [9, 9]).seek (-(2 + 10)) .ends).pos ≠ 0 := by
  decide

/-- Each loop iteration of read_line appends at most one character to the
output, so the output grows by at most `count` characters. -/
theorem readLineGo_chars_length (count : Nat) :
    ∀ (m : MemFile) (c : Option UInt8) (acc : List (Option UInt8)),
      (readLineGo m c acc count).2.2.length ≤ acc.length + count := by
  induction count with
  | zero =>
    intro m c acc
    simp [readLineGo]
  | succ k ih =>
    intro m c acc
    simp only [readLineGo]
    split
    · simp
    · refine le_trans (ih _ _ _) ?_
      split
      · simp only [List.length_append, List.length_singleton]
        omega
      · omega

/-- C8 (amended): read_line writes at most `max_count` characters — one
more than the `max_count - 1` the claim states is possible — returns the
number of characters written excluding the terminator, and writes the NUL
terminator immediately after the last written character when the loop
ended on a consumed line feed, but one position further (leaving a one-byte
gap) when it ended by exhausting `max_count`. -/
theorem c8_readline_terminator (m : MemFile) (count : Nat) :
    (m.readLine count).chars.length ≤ count ∧
    (m.readLine count).ret = (m.readLine count).chars.length ∧
    (m.readLine count).nulIdx =
      (if (m.readLine count).lastC = some 10 then (m.readLine count).chars.length
       else (m.readLine count).chars.length + 1) := by
  refine ⟨?_, rfl, rfl⟩
  simpa using readLineGo_chars_length count m (some 0) []

/-- Counterexample for C8: on the source "abcd" with max_count = 2,
read_line writes 2 characters (not at most 2 - 1 = 1) and places the NUL
terminator at index 3, not immediately after the last written character
at index 2. -/
theorem c8_bufferfull_writes_count_and_gaps_nul :
    ¬(((MemFile.borrowing [97, 98, 99, 100]).readLine 2).chars.length ≤ 2 - 1 ∧
      ((MemFile.borrowing [97, 98, 99, 100]).readLine 2).nulIdx =
        ((MemFile.borrowing [97, 98, 99, 100]).readLine 2).chars.length) := by
  decide

/-- C9 (amended): for a MemFile whose size fits in `size_t`, a read started
at a position inside `[0, size]` leaves the position inside `[0, size]`
(it never advances past the length), and an end-relative seek never leaves
the position above the length; start- and current-relative seeks are not
clamped and can place the position outside `[0, size]`. -/
theorem c9_read_preserves_invariant (m : MemFile) (n : Nat)
    (h0 : 0 ≤ m.pos) (h1 : m.pos ≤ (m.size : Int)) (hsz : m.size < 2 ^ 64) :
    (0 ≤ ((m.read n).2.2).pos ∧ ((m.read n).2.2).pos ≤ (((m.read n).2.2).size : Int)) ∧
    (∀ offset : Int, (m.seek offset .ends).pos ≤ (m.size : Int)) := by
  constructor
  · have h64 : (2 : Int) ^ 64 = 18446744073709551616 := by norm_num
    have h64n : (2 : Nat) ^ 64 = 18446744073709551616 := by norm_num
    simp only [MemFile.read, sizeT, h64]
    rw [h64n] at hsz
    constructor <;> omega
  · intro offset
    simp only [MemFile.seek]
    omega

/-- Witness for C9: reading 5 bytes of a 1-byte MemFile from position 0
leaves the position inside [0, 1], and every end-relative seek leaves the
position at most 1. -/
theorem c9_read_preserves_invariant_witness :
    (0 ≤ (((MemFile.borrowing [7]).read 5).2.2).pos ∧
      (((MemFile.borrowing [7]).read 5).2.2).pos ≤
        ((((MemFile.borrowing [7]).read 5).2.2).size : Int)) ∧
    (∀ offset : Int, ((MemFile.borrowing [7]).seek offset .ends).pos ≤
      ((MemFile.borrowing [7]).size : Int)) :=
  c9_read_preserves_invariant (MemFile.borrowing [7]) 5 (by decide) (by decide) (by decide)

/-- Counterexample for C9: on a MemFile of length 1, seek(2, beg) places
the position at 2, violating `position ≤ length`. -/
theorem c9_beg_seek_breaks_invariant :
    ¬(0 ≤ ((MemFile.borrowing [7]).seek 2 .beg).pos ∧
      ((MemFile.borrowing [7]).seek 2 .beg).pos ≤
        ((((MemFile.borrowing [7]).seek 2 .beg)).size : Int)) := by
  decide

/-- Reading one byte of a borrowed buffer from a position strictly before
the end copies exactly the byte at that position and advances the position
by one. -/
theorem borrowing_read_one (bs : List UInt8) (p : Nat)
    (hp : p < bs.length) (hsz : bs.length < 2 ^ 64) :
    ({ MemFile.borrowing bs with pos := (p : Int) } : MemFile).read 1 =
      (1 / bs.length, [some (bs.getD p 0)],
        { MemFile.borrowing bs with pos := (p : Int) + 1 }) := by
  have hrem : sizeT ((bs.length : Int) - (p : Int)) = bs.length - p := by
    simp only [sizeT]
    have h1 : ((bs.length : Int) - (p : Int)) % (2 ^ 64 : Int) =
        (bs.length : Int) - (p : Int) := by
      apply Int.emod_eq_of_lt (by omega)
      have : ((bs.length : Int)) < (2 : Int) ^ 64 := by exact_mod_cast hsz
      omega
    rw [h1]
    omega
  have hk : min (sizeT ((bs.length : Int) - (p : Int))) 1 = 1 := by
    rw [hrem]; omega
  simp only [MemFile.read, MemFile.borrowing, hk]
  refine congrArg (Prod.mk _) ?_
  refine congrArg₂ Prod.mk ?_ ?_
  · have hr : List.range 1 = [0] := by decide
    simp [hr, hp]
  · simp only [Nat.cast_one]

/-- C10 (amended): at every position strictly before the end of the
source, peek leaves the position unchanged and returns the byte at that
position, and a subsequent get returns that same byte while advancing the
position by exactly 1; at the end-of-file position the property fails,
because get consumes nothing there while peek still seeks back one byte. -/
theorem c10_peek_get_before_eof (bs : List UInt8) (p : Nat)
    (hp : p < bs.length) (hsz : bs.length < 2 ^ 64) :
    (({ MemFile.borrowing bs with pos := (p : Int) } : MemFile).peek).1 =
      some (bs.getD p 0) ∧
    (({ MemFile.borrowing bs with pos := (p : Int) } : MemFile).peek).2.pos = (p : Int) ∧
    ((({ MemFile.borrowing bs with pos := (p : Int) } : MemFile).peek).2.get).1 =
      some (bs.getD p 0) ∧
    ((({ MemFile.borrowing bs with pos := (p : Int) } : MemFile).peek).2.get).2.pos =
      (p : Int) + 1 := by
  have h1 := borrowing_read_one bs p hp hsz
  have hpos : ((p : Int) + 1) + (-1) = (p : Int) := by ring
  have hpeek : ({ MemFile.borrowing bs with pos := (p : Int) } : MemFile).peek =
      (some (bs.getD p 0), { MemFile.borrowing bs with pos := (p : Int) }) := by
    simp only [MemFile.peek, MemFile.get, h1, MemFile.seek, List.headD_cons, hpos]
  rw [hpeek]
  refine ⟨rfl, rfl, ?_, ?_⟩ <;> simp only [MemFile.get, h1, List.headD_cons]

/-- Witness for C10: on the two-byte source [5, 7] at position 1, peek
returns byte 7 leaving the position at 1, and the following get returns 7
again advancing the position to 2. -/
theorem c10_peek_get_before_eof_witness :
    (({ MemFile.borrowing [5, 7] with pos := ((1 : Nat) : Int) } : MemFile).peek).1 =
      some (([5, 7] : List UInt8).getD 1 0) ∧
    (({ MemFile.borrowing [5, 7] with pos := ((1 : Nat) : Int) } : MemFile).peek).2.pos =
      ((1 : Nat) : Int) ∧
    ((({ MemFile.borrowing [5, 7] with pos := ((1 : Nat) : Int) } : MemFile).peek).2.get).1 =
      some (([5, 7] : List UInt8).getD 1 0) ∧
    ((({ MemFile.borrowing [5, 7] with pos := ((1 : Nat) : Int) } : MemFile).peek).2.get).2.pos =
      ((1 : Nat) : Int) + 1 :=
  c10_peek_get_before_eof [5, 7] 1 (by decide) (by decide)

/-- Counterexample for C10: on a one-byte source that has been read to its
end (position 1 = size), peek does not leave the position unchanged — it
moves it back to 0, because get consumes no byte at end-of-file while peek
still seeks back by one. -/
theorem c10_peek_at_eof_moves_position :
    ((((MemFile.borrowing [97]).read 1).2.2).peek).2.pos ≠
      (((MemFile.borrowing [97]).read 1).2.2).pos := by
  decide

end kx
